import Mathlib

/-!
Verification of the cplayground server core against its specification.

The development shallowly embeds two subsystems:

* the process-introspection engine (`debugging.ts`: `FILE_FLAGS`,
  `readFlags`, `populateProcessTable`, `populateOpenFileTable`,
  `populateVnodeTable`, `cleanContainerData`, `reconstructTables`);
* the session layer (`socket-connection.ts`: `getRunParams`,
  `startContainer`, `onSocketDisconnect`, `onContainerExit`,
  `makeDebugHandler`).

JavaScript objects used as dictionaries are embedded as association lists
in insertion order: assigning to a fresh key appends an entry, assigning
to an existing key updates the entry in place.  Flag names are embedded as
plain strings, matching the JS object keys.
-/

namespace Cplayground

/-! ### Association tables (JS objects used as dictionaries) -/

/-- First-match lookup, `obj[key]` returning `undefined` as `none`. -/
def tlookup {κ ν : Type} [DecidableEq κ] : List (κ × ν) → κ → Option ν
  | [], _ => none
  | (k, v) :: rest, key => if k = key then some v else tlookup rest key

/-- `obj[key] = val`: update in place if the key exists, else append. -/
def tset {κ ν : Type} [DecidableEq κ] : List (κ × ν) → κ → ν → List (κ × ν)
  | [], key, val => [(key, val)]
  | (k, v) :: rest, key, val =>
    if k = key then (key, val) :: rest else (k, v) :: tset rest key val

/-- Modify the value under a key in place (no-op when the key is absent). -/
def tmodify {κ ν : Type} [DecidableEq κ] (f : ν → ν) :
    List (κ × ν) → κ → List (κ × ν)
  | [], _ => []
  | (k, v) :: rest, key =>
    if k = key then (k, f v) :: rest else (k, v) :: tmodify f rest key

/-- The keys of a table, in order. -/
def tkeys {κ ν : Type} (t : List (κ × ν)) : List κ := t.map Prod.fst

theorem tlookup_append {κ ν : Type} [DecidableEq κ] (t₁ t₂ : List (κ × ν))
    (key : κ) :
    tlookup (t₁ ++ t₂) key =
      match tlookup t₁ key with
      | some v => some v
      | none => tlookup t₂ key := by
  induction t₁ with
  | nil => simp [tlookup]
  | cons hd tl ih =>
    obtain ⟨k, v⟩ := hd
    by_cases h : k = key <;> simp [tlookup, h, ih]

theorem tlookup_tset_self {κ ν : Type} [DecidableEq κ] (t : List (κ × ν))
    (key : κ) (val : ν) : tlookup (tset t key val) key = some val := by
  induction t with
  | nil => simp [tset, tlookup]
  | cons hd tl ih =>
    obtain ⟨k, v⟩ := hd
    by_cases h : k = key <;> simp [tset, tlookup, h, ih]

theorem tlookup_tset_ne {κ ν : Type} [DecidableEq κ] (t : List (κ × ν))
    (key key' : κ) (val : ν) (h : key ≠ key') :
    tlookup (tset t key val) key' = tlookup t key' := by
  induction t with
  | nil => simp [tset, tlookup, h]
  | cons hd tl ih =>
    obtain ⟨k, v⟩ := hd
    by_cases hk : k = key
    · subst hk
      simp [tset, tlookup, h]
    · simp only [tset, if_neg hk]
      by_cases hk' : k = key' <;> simp [tlookup, hk', ih]

theorem tlookup_tmodify_self {κ ν : Type} [DecidableEq κ] (f : ν → ν)
    (t : List (κ × ν)) (key : κ) :
    tlookup (tmodify f t key) key = (tlookup t key).map f := by
  induction t with
  | nil => simp [tmodify, tlookup]
  | cons hd tl ih =>
    obtain ⟨k, v⟩ := hd
    by_cases h : k = key <;> simp [tmodify, tlookup, h, ih]

theorem tlookup_tmodify_ne {κ ν : Type} [DecidableEq κ] (f : ν → ν)
    (t : List (κ × ν)) (key key' : κ) (h : key ≠ key') :
    tlookup (tmodify f t key) key' = tlookup t key' := by
  induction t with
  | nil => simp [tmodify]
  | cons hd tl ih =>
    obtain ⟨k, v⟩ := hd
    by_cases hk : k = key
    · subst hk
      simp [tmodify, tlookup, h]
    · simp only [tmodify, if_neg hk]
      by_cases hk' : k = key' <;> simp [tlookup, hk', ih]

theorem tkeys_tmodify {κ ν : Type} [DecidableEq κ] (f : ν → ν)
    (t : List (κ × ν)) (key : κ) : tkeys (tmodify f t key) = tkeys t := by
  induction t with
  | nil => rfl
  | cons hd tl ih =>
    obtain ⟨k, v⟩ := hd
    by_cases h : k = key <;> simp [tmodify, tkeys, h] <;>
      simpa [tkeys] using ih

theorem tlookup_eq_none_iff {κ ν : Type} [DecidableEq κ]
    (t : List (κ × ν)) (key : κ) :
    tlookup t key = none ↔ key ∉ tkeys t := by
  induction t with
  | nil => simp [tlookup, tkeys]
  | cons hd tl ih =>
    obtain ⟨k, v⟩ := hd
    by_cases h : k = key <;> simp [tlookup, tkeys, h, ih] <;> tauto

theorem mem_of_tlookup_eq_some {κ ν : Type} [DecidableEq κ]
    (t : List (κ × ν)) (key : κ) (v : ν) (h : tlookup t key = some v) :
    (key, v) ∈ t := by
  induction t with
  | nil => simp [tlookup] at h
  | cons hd tl ih =>
    obtain ⟨k, w⟩ := hd
    by_cases hk : k = key
    · subst hk
      simp [tlookup] at h
      simp [h]
    · simp [tlookup, hk] at h
      exact List.mem_cons_of_mem _ (ih h)

theorem tlookup_eq_some_of_mem {κ ν : Type} [DecidableEq κ]
    (t : List (κ × ν)) (key : κ) (v : ν) (hnd : (tkeys t).Nodup)
    (h : (key, v) ∈ t) : tlookup t key = some v := by
  induction t with
  | nil => simp at h
  | cons hd tl ih =>
    obtain ⟨k, w⟩ := hd
    simp only [tkeys, List.map_cons, List.nodup_cons] at hnd
    rcases List.mem_cons.mp h with hh | hh
    · obtain ⟨hk, hv⟩ := Prod.mk.injEq .. ▸ hh
      simp [tlookup, hk.symm, hv]
    · have hk : k ≠ key := by
        intro hk
        subst hk
        exact hnd.1 (by simpa [tkeys] using List.mem_map_of_mem Prod.fst hh)
      simp [tlookup, hk, ih hnd.2 hh]

/-! ### File flags (`FILE_FLAGS`, `readFlags`) -/

/-- The flag dictionary, in source order.  Keys are the JS object keys. -/
def FILE_FLAGS : List (String × Nat) :=
  [("O_RDONLY", 0o0),
   ("O_WRONLY", 0o1),
   ("O_RDWR", 0o2),
   ("O_APPEND", 0o2000),
   ("O_NONBLOCK", 0o4000),
   ("O_NDELAY", 0o4000),
   ("O_SYNC", 0o4010000),
   ("O_ASYNC", 0o20000),
   ("O_DSYNC", 0o10000),
   ("O_NOATIME", 0o1000000),
   ("O_CLOEXEC", 0o2000000),
   ("S_IFIFO", 0o010000),
   ("S_IFCHR", 0o020000),
   ("S_IFDIR", 0o040000),
   ("S_IFBLK", 0o060000),
   ("S_IFREG", 0o100000),
   ("S_IFLNK", 0o120000),
   ("S_IFSOCK", 0o140000)]

/-- The flag-collection loop of `readFlags`: every flag whose bit pattern
is a subset of the value, in dictionary order. -/
def matchedFlags (octal : Nat) : List String :=
  (FILE_FLAGS.filter (fun p => octal &&& p.snd == p.snd)).map Prod.fst

/-- JS `Array.prototype.indexOf`: first index, or `-1` when absent. -/
def jsIndexOf (xs : List String) (x : String) : Int :=
  match xs.findIdx? (fun y => y == x) with
  | some i => (i : Int)
  | none => -1

/-- JS `Array.prototype.splice(start, 1)`: remove one element at `start`;
a negative `start` counts from the end of the array. -/
def jsSpliceRemove1 {α : Type} (xs : List α) (start : Int) : List α :=
  let s : Nat := if start < 0 then (xs.length + start).toNat else start.toNat
  xs.take s ++ xs.drop (s + 1)

/-- `readFlags` on the already-parsed octal value: collect matching flags,
then splice out `O_RDONLY` when a write-mode flag is present.  (The
source's final loop only emits a console warning about unaccounted bits
and does not affect the return value, so it is not modelled.) -/
def readFlagsOct (octal : Nat) : List String :=
  let flags := matchedFlags octal
  if flags.contains "O_WRONLY" || flags.contains "O_RDWR" then
    jsSpliceRemove1 flags (jsIndexOf flags "O_RDONLY")
  else flags

/-- `parseInt(s, 8)` on a well-formed octal digit string. -/
def parseOct (s : String) : Nat :=
  s.data.foldl (fun acc c => acc * 8 + (c.toNat - 48)) 0

/-- `readFlags`: given an octal string, the list of matching flag names. -/
def readFlags (octalStr : String) : List String :=
  readFlagsOct (parseOct octalStr)

/-! ### Introspection data model (`communication.ts` shapes) -/

/-- A parsed file-record line (`RawFileInfo`). -/
structure RawFileInfo where
  fd : Nat
  closeOnExec : Bool
  openFileID : String
  pos : Nat
  flags : List String
  vnodeName : String
deriving DecidableEq, Repr

/-- A parsed process line together with its file records
(`RawProcessInfo`).  `files` stands for `Object.values(proc.files)` in
key order; the loader keys that object by descriptor number, so the `fd`
fields of the list are pairwise distinct in any loader-produced value. -/
structure RawProcessInfo where
  namespaceID : String
  globalPID : Nat
  containerPID : Nat
  containerPPID : Nat
  containerPGID : Nat
  command : String
  files : List RawFileInfo
deriving DecidableEq, Repr

/-- `RawContainerInfo`: one namespace's processes, keyed by the
container-relative pid (the loader stores `namespaces[ns][containerPID] =
proc`). -/
abbrev RawContainerInfo : Type := List (Nat × RawProcessInfo)

/-- One entry of a descriptor table: `{file, closeOnExec}`. -/
structure FDEntry where
  file : String
  closeOnExec : Bool
deriving DecidableEq, Repr

/-- `FileDescriptorTable`: descriptor number to entry. -/
abbrev FileDescriptorTable : Type := List (Nat × FDEntry)

/-- A cleaned process entry (`Process`): container-relative ids only. -/
structure Process where
  pid : Nat
  ppid : Nat
  pgid : Nat
  command : String
  fds : FileDescriptorTable
deriving DecidableEq, Repr

/-- One entry of the open-file table. -/
structure OpenFileEntry where
  position : Nat
  flags : List String
  refcount : Nat
  vnode : String
deriving DecidableEq, Repr

/-- `OpenFileTable`: open-file id to entry. -/
abbrev OpenFileTable : Type := List (String × OpenFileEntry)

/-- One entry of the vnode table. -/
structure VnodeEntry where
  name : String
  refcount : Nat
deriving DecidableEq, Repr

/-- `VnodeTable`: vnode name to entry. -/
abbrev VnodeTable : Type := List (String × VnodeEntry)

/-- `ContainerInfo`: the cleaned, client-visible snapshot of one
namespace. -/
structure ContainerInfo where
  processes : List Process
  openFiles : OpenFileTable
  vnodes : VnodeTable
deriving DecidableEq, Repr

/-- The fatal reconstruction error class. -/
structure DebugDataError where
  message : String
deriving DecidableEq, Repr

/-- `RawInfoByNamespace`: namespace id to raw container info. -/
abbrev RawInfoByNamespace : Type := List (String × RawContainerInfo)

/-- `CleanedInfoByNamespace`: init-process global pid to cleaned info. -/
abbrev CleanedInfoByNamespace : Type := List (Nat × ContainerInfo)

/-! ### Table reconstruction (`populate*`, `cleanContainerData`,
`reconstructTables`) -/

/-- The descriptor-table loop of `populateProcessTable`:
`fds[fd.fd] = {file: fd.openFileID, closeOnExec: fd.closeOnExec}`. -/
def buildFds (files : List RawFileInfo) : FileDescriptorTable :=
  files.foldl (fun fds f => tset fds f.fd ⟨f.openFileID, f.closeOnExec⟩) []

/-- `populateProcessTable`: project each raw process onto its
container-relative ids and descriptor table. -/
def populateProcessTable (rawProcesses : List RawProcessInfo) :
    List Process :=
  rawProcesses.map (fun proc =>
    ⟨proc.containerPID, proc.containerPPID, proc.containerPGID,
     proc.command, buildFds proc.files⟩)

/-- The open-file entry a file record denotes, with reference count 1. -/
def entryOf (f : RawFileInfo) : OpenFileEntry :=
  ⟨f.pos, f.flags, 1, f.vnodeName⟩

/-- `deepCompare` with the `refcount` fields stripped: structural
equality of position, flags and vnode. -/
def sameOpenFile (a b : OpenFileEntry) : Bool :=
  a.position == b.position && a.flags == b.flags && a.vnode == b.vnode

/-- One iteration of the `populateOpenFileTable` loop. -/
def insertOpenFile (t : OpenFileTable) (f : RawFileInfo) :
    Except DebugDataError OpenFileTable :=
  match tlookup t f.openFileID with
  | none => .ok (tset t f.openFileID (entryOf f))
  | some existing =>
    if sameOpenFile (entryOf f) existing then
      .ok (tmodify (fun e => { e with refcount := e.refcount + 1 })
        t f.openFileID)
    else
      .error ⟨"There is already an open file " ++ f.openFileID ++
        " with different info compared to this open file entry!"⟩

/-- The `populateOpenFileTable` loop over the remaining file records. -/
def openFileGo (t : OpenFileTable) :
    List RawFileInfo → Except DebugDataError OpenFileTable
  | [] => .ok t
  | f :: rest =>
    match insertOpenFile t f with
    | .error e => .error e
    | .ok t' => openFileGo t' rest

/-- `populateOpenFileTable`: fold all file records into the open-file
table, raising `DebugDataError` on a conflicting duplicate id. -/
def populateOpenFileTable (rawFiles : List RawFileInfo) :
    Except DebugDataError OpenFileTable :=
  openFileGo [] rawFiles

/-- One iteration of the first `populateVnodeTable` loop. -/
def insertVnode (t : VnodeTable) (f : RawFileInfo) :
    Except DebugDataError VnodeTable :=
  let vnodeEntry : VnodeEntry := ⟨f.vnodeName, 0⟩
  match tlookup t f.vnodeName with
  | none => .ok (tset t f.vnodeName vnodeEntry)
  | some existing =>
    if vnodeEntry = existing then .ok t
    else
      .error ⟨"There is already a vnode " ++ f.vnodeName ++
        " with different info compared to this vnode!"⟩

/-- The first `populateVnodeTable` loop over the file records. -/
def vnodeGo (t : VnodeTable) :
    List RawFileInfo → Except DebugDataError VnodeTable
  | [] => .ok t
  | f :: rest =>
    match insertVnode t f with
    | .error e => .error e
    | .ok t' => vnodeGo t' rest

/-- The second `populateVnodeTable` loop: bump the refcount of each open
file's vnode.  (In the source the vnode is always present at this point;
an absent key would be a JS runtime error, modelled as a no-op that is
never reached from `cleanContainerData`.) -/
def bumpVnodeRefcounts (t : VnodeTable) (openFiles : OpenFileTable) :
    VnodeTable :=
  openFiles.foldl
    (fun acc entry =>
      tmodify (fun v => { v with refcount := v.refcount + 1 })
        acc entry.snd.vnode)
    t

/-- `populateVnodeTable`: build the vnode table from the file records,
then recompute refcounts from the open-file table. -/
def populateVnodeTable (rawFiles : List RawFileInfo)
    (openFiles : OpenFileTable) : Except DebugDataError VnodeTable :=
  match vnodeGo [] rawFiles with
  | .error e => .error e
  | .ok t => .ok (bumpVnodeRefcounts t openFiles)

/-- The result of `cleanContainerData`: the namespace key and its
cleaned snapshot. -/
structure CleanResult where
  globalPID : Nat
  data : ContainerInfo
deriving DecidableEq, Repr

/-- The exposed raw processes of a namespace:
`Object.values(rawProcesses).filter((proc) => proc.containerPID > 1)`. -/
def exposedProcs (rawProcesses : RawContainerInfo) :
    List RawProcessInfo :=
  (rawProcesses.map Prod.snd).filter (fun proc => proc.containerPID > 1)

/-- The file records of the exposed processes, flattened. -/
def exposedFiles (rawProcesses : RawContainerInfo) : List RawFileInfo :=
  ((exposedProcs rawProcesses).map (fun process => process.files)).flatten

/-- `cleanContainerData`: reconstruct one namespace, keyed by the global
pid of its container-relative pid-1 process. -/
def cleanContainerData (rawProcesses : RawContainerInfo) :
    Except DebugDataError CleanResult :=
  match tlookup rawProcesses 1 with
  | none =>
    .error ⟨"This namespace seems to be missing an init process! " ++
      "This should never happen."⟩
  | some initProcess =>
    match populateOpenFileTable (exposedFiles rawProcesses) with
    | .error e => .error e
    | .ok openFileTable =>
      match populateVnodeTable (exposedFiles rawProcesses) openFileTable with
      | .error e => .error e
      | .ok vnodeTable =>
        .ok ⟨initProcess.globalPID,
          ⟨populateProcessTable (exposedProcs rawProcesses), openFileTable,
           vnodeTable⟩⟩

/-- One iteration of the `reconstructTables` loop: clean one namespace,
storing the result under its global pid, or catch the `DebugDataError`
(the failed namespace is logged and omitted). -/
def reconstructStep (containers : CleanedInfoByNamespace)
    (ns : String × RawContainerInfo) : CleanedInfoByNamespace :=
  match cleanContainerData ns.snd with
  | .ok r => tset containers r.globalPID r.data
  | .error _ => containers

/-- `reconstructTables`: reconstruct every namespace, isolating
per-namespace failures. -/
def reconstructTables (namespaces : RawInfoByNamespace) :
    CleanedInfoByNamespace :=
  namespaces.foldl reconstructStep []

/-! ### Run parameter validation (`getRunParams`) -/

/-- The configuration constants imported from `constants.ts` and `db.ts`.
The constants module is not part of the excerpt, so the values are kept
abstract; `getRunParams` only consults them through this record. -/
structure ValidatorConfig where
  SUPPORTED_VERSIONS : List String
  DEFAULT_VERSION : String
  FLAG_WHITELIST : List String
  CFLAGS_MAX_LEN : Nat
  CODE_MAX_LEN : Nat
  ARGS_MAX_LEN : Nat

/-- The `run` event payload (`RunEventBody`).  Optional fields are
`Option`; `flags`/`breakpoints` are `none` when absent or not an array
(`Array.isArray` guard), `debug` is already coerced by `Boolean(...)`. -/
structure RunEventBody where
  language : String
  flags : Option (List String)
  code : Option String
  args : Option String
  includeFileId : Option String
  debug : Bool
  breakpoints : Option (List Nat)
deriving DecidableEq, Repr

/-- The validated parameters returned by `getRunParams`.  File contents
are byte lists. -/
structure RunParams where
  compiler : String
  cflags : String
  code : String
  argsStr : String
  includeFileId : Option String
  includeFileData : Option (List Nat)
  debug : Bool
  breakpoints : List Nat
deriving DecidableEq, Repr

/-- The client-validation error class. -/
structure ClientValidationError where
  message : String
deriving DecidableEq, Repr

/-- JS truthiness of an optional string (`undefined`, `null` and the
empty string are falsy). -/
def jsTruthyStr (s : Option String) : Bool :=
  s.getD "" != ""

/-- The language examined by `getRunParams`: the requested one when
supported, the configured default otherwise. -/
def substitutedLang (cfg : ValidatorConfig) (request : RunEventBody) :
    String :=
  if cfg.SUPPORTED_VERSIONS.contains request.language then
    request.language
  else cfg.DEFAULT_VERSION

/-- The requested flags that survive the whitelist filter. -/
def suppliedCflags (cfg : ValidatorConfig) (request : RunEventBody) :
    List String :=
  (request.flags.getD []).filter (fun flag =>
    cfg.FLAG_WHITELIST.contains flag)

/-- JS `String.prototype.toLowerCase`, as a computable map over the
characters. -/
def jsToLowerCase (s : String) : String :=
  ⟨s.data.map Char.toLower⟩

/-- JS `String.prototype.trim`: strip whitespace from both ends. -/
def jsTrim (s : String) : String :=
  ⟨(((s.data.dropWhile Char.isWhitespace).reverse.dropWhile
      Char.isWhitespace).reverse)⟩

/-- JS `Array.prototype.join` with a separator. -/
def jsJoin (sep : String) : List String → String
  | [] => ""
  | [x] => x
  | x :: rest => x ++ sep ++ jsJoin sep rest

/-- The composed cflags string:
``(`-std=lang lowercased flags...`).trim()``. -/
def composedCflags (cfg : ValidatorConfig) (request : RunEventBody) :
    String :=
  jsTrim ("-std=" ++ jsToLowerCase (substitutedLang cfg request) ++ " " ++
    jsJoin " " (suppliedCflags cfg request))

/-- The condition under which `getRunParams` logs the non-whitelisted
flags warning. -/
def cflagsWarning (cfg : ValidatorConfig) (request : RunEventBody) :
    Bool :=
  (suppliedCflags cfg request).length != (request.flags.getD []).length

/-- The compiler selected for the (substituted) language. -/
def compilerOf (cfg : ValidatorConfig) (request : RunEventBody) : String :=
  if ["C99", "C11"].contains (substitutedLang cfg request) then "gcc"
  else "g++"

/-- The resolved include-file bytes: looked up only when an id was
supplied (JS truthiness). -/
def includeFileDataOf (getFileContents : String → Option (List Nat))
    (request : RunEventBody) : Option (List Nat) :=
  if jsTruthyStr request.includeFileId then
    getFileContents (request.includeFileId.getD "")
  else none

/-- `getRunParams`, with the persistence lookup `getFileContents` passed
in as a function.  Checks run in source order; each failure is a
`ClientValidationError`. -/
def getRunParams (cfg : ValidatorConfig)
    (getFileContents : String → Option (List Nat))
    (request : RunEventBody) :
    Except ClientValidationError RunParams :=
  if (composedCflags cfg request).length > cfg.CFLAGS_MAX_LEN then
    .error ⟨"Submitted cflags exceeds max length!"⟩
  else if (request.code.getD "").length > cfg.CODE_MAX_LEN then
    .error ⟨"Submitted code exceeds max length!"⟩
  else if (request.args.getD "").length > cfg.ARGS_MAX_LEN then
    .error ⟨"Submitted args exceed max length!"⟩
  else if jsTruthyStr request.includeFileId &&
      (includeFileDataOf getFileContents request).isNone then
    .error ⟨"includeFileId is invalid"⟩
  else if !request.debug &&
      decide ((request.breakpoints.getD []).length > 0) then
    .error ⟨"Breakpoints are specified even though debugging " ++
      "is not enabled"⟩
  else
    .ok ⟨compilerOf cfg request, composedCflags cfg request,
      request.code.getD "", request.args.getD "",
      (if (includeFileDataOf getFileContents request).isNone then none
       else request.includeFileId),
      includeFileDataOf getFileContents request, request.debug,
      request.breakpoints.getD []⟩

/-! ### Session state machine (`SocketConnection`) -/

/-- Externally visible actions a session handler performs, in order. -/
inductive Action where
  | disconnect
  | insertProgram
  | createRun
  | emitSaved (aliasStr : String)
  | startedContainer
  | emitExit
  | updateRun
  | shutdown
deriving DecidableEq, Repr

/-- The mutable per-session fields relevant to the claims: the held
container capability and whether the socket is still connected.  `γ` is
the abstract container-capability type. -/
structure SessionState (γ : Type) where
  container : Option γ
  connected : Bool
deriving DecidableEq, Repr

/-- The `disconnect` listener: shut down the container if one is held
(the source never clears the reference here). -/
def onSocketDisconnect {γ : Type} (s : SessionState γ) :
    SessionState γ × List Action :=
  (s, match s.container with
      | some _ => [.shutdown]
      | none => [])

/-- Modelled from the spec: `socket.disconnect()` on the event channel —
closing an open socket fires the registered `disconnect` listener
synchronously on the session's single event loop, and closing an
already-closed socket is a no-op.  (The socket library itself is an
external collaborator and not part of the excerpt.) -/
def socketDisconnect {γ : Type} (s : SessionState γ) :
    SessionState γ × List Action :=
  if s.connected then
    let s1 : SessionState γ := { s with connected := false }
    let r := onSocketDisconnect s1
    (r.fst, .disconnect :: r.snd)
  else (s, [])

/-- `startContainer`: ignore the request when a container is already
held; otherwise validate, and on failure hang up, on success persist the
program and run record, emit the alias and hold the new container.  The
persistence results (`alias`, run id) and the container constructor are
abstracted as arguments. -/
def startContainer {γ : Type} (cfg : ValidatorConfig)
    (getFileContents : String → Option (List Nat))
    (mkContainer : RunParams → γ) (aliasStr : String)
    (s : SessionState γ) (request : RunEventBody) :
    SessionState γ × List Action :=
  match s.container with
  | some _ => (s, [])
  | none =>
    match getRunParams cfg getFileContents request with
    | .error _ => socketDisconnect s
    | .ok p =>
      ({ s with container := some (mkContainer p) },
       [.insertProgram, .createRun, .emitSaved aliasStr, .startedContainer])

/-- `onContainerExit`: if the socket is still connected, emit the exit
event and close it (which fires the disconnect listener); then persist
the run outcome and clear the container reference. -/
def onContainerExit {γ : Type} (s : SessionState γ) :
    SessionState γ × List Action :=
  let r :=
    if s.connected then
      let d := socketDisconnect s
      (d.fst, [Action.emitExit] ++ d.snd)
    else (s, ([] : List Action))
  ({ r.fst with container := none }, r.snd ++ [.updateRun])

/-- The session events relevant to the shutdown claim. -/
inductive SessEvent where
  | disconnect
  | containerExit
deriving DecidableEq, Repr

/-- Dispatch one session event. -/
def stepSession {γ : Type} (s : SessionState γ) :
    SessEvent → SessionState γ × List Action
  | .disconnect => socketDisconnect s
  | .containerExit => onContainerExit s

/-- Run a sequence of session events, accumulating the actions. -/
def runSession {γ : Type} (s : SessionState γ) :
    List SessEvent → SessionState γ × List Action
  | [] => (s, [])
  | e :: rest =>
    let r := stepSession s e
    let r' := runSession r.fst rest
    (r'.fst, r.snd ++ r'.snd)

/-- The number of `shutdown()` calls in an action list. -/
def shutdownCount (acts : List Action) : Nat :=
  acts.countP (fun a => a == Action.shutdown)

/-! ### Debug command bridge (`makeDebugHandler`) -/

/-- The outcome of invoking a container's debug method: normal return, a
thrown `DebugStateError`, or any other thrown error. -/
inductive DebugCallResult where
  | ok
  | debugStateError (msg : String)
  | otherError (msg : String)
deriving DecidableEq, Repr

/-- What a debug handler invocation did: the `cplaygroundError` messages
emitted, the exception (if any) escaping the handler, and the session
state afterwards. -/
structure DebugHandlerOutcome (γ : Type) where
  emitted : List String
  thrown : Option String
  state : SessionState γ
deriving DecidableEq, Repr

/-- The handler produced by `makeDebugHandler` for one debug command:
with no container, emit the structured error; otherwise invoke the
command, and catch any thrown error, re-emitting it only when it is a
`DebugStateError` (the `catch` block has no re-throw, so every other
error is dropped). -/
def makeDebugHandler {γ : Type} (s : SessionState γ)
    (executeCommand : γ → DebugCallResult) : DebugHandlerOutcome γ :=
  match s.container with
  | none => ⟨["No program is currently running."], none, s⟩
  | some c =>
    match executeCommand c with
    | .ok => ⟨[], none, s⟩
    | .debugStateError m => ⟨[m], none, s⟩
    | .otherError _ => ⟨[], none, s⟩

/-! ### Flag-decoding lemmas -/

/-- The flags matched from the second dictionary entry on. -/
def tailMatched (octal : Nat) : List String :=
  ((FILE_FLAGS.drop 1).filter (fun p => octal &&& p.snd == p.snd)).map
    Prod.fst

theorem matchedFlags_eq_cons (octal : Nat) :
    matchedFlags octal = "O_RDONLY" :: tailMatched octal := by
  simp [matchedFlags, tailMatched, FILE_FLAGS, List.filter_cons,
    Nat.and_zero]

theorem not_mem_tailMatched (octal : Nat) :
    "O_RDONLY" ∉ tailMatched octal := by
  intro h
  have hall : ∀ p ∈ FILE_FLAGS.drop 1, p.fst ≠ "O_RDONLY" := by decide
  simp only [tailMatched, List.mem_map] at h
  obtain ⟨p, hp, hname⟩ := h
  exact hall p (List.mem_of_mem_filter hp) hname

theorem readFlagsOct_eq_erase (octal : Nat) :
    readFlagsOct octal =
      if "O_WRONLY" ∈ matchedFlags octal ∨ "O_RDWR" ∈ matchedFlags octal
      then (matchedFlags octal).erase "O_RDONLY"
      else matchedFlags octal := by
  have hcons := matchedFlags_eq_cons octal
  have hnm := not_mem_tailMatched octal
  have hidx : jsIndexOf (matchedFlags octal) "O_RDONLY" = 0 := by
    rw [hcons]
    simp [jsIndexOf, List.findIdx?_cons]
  have hsplice :
      jsSpliceRemove1 (matchedFlags octal)
        (jsIndexOf (matchedFlags octal) "O_RDONLY") = tailMatched octal := by
    rw [hidx, hcons]
    simp [jsSpliceRemove1]
  have herase : (matchedFlags octal).erase "O_RDONLY" = tailMatched octal := by
    rw [hcons]
    exact List.erase_cons_head ..
  simp only [readFlagsOct]
  by_cases h : "O_WRONLY" ∈ matchedFlags octal ∨ "O_RDWR" ∈ matchedFlags octal
  · have hc : ((matchedFlags octal).contains "O_WRONLY" ||
        (matchedFlags octal).contains "O_RDWR") = true := by
      rcases h with h | h <;> simp [List.contains, List.elem_eq_mem, h]
    rw [if_pos hc, if_pos h, hsplice, herase]
  · have hc : ((matchedFlags octal).contains "O_WRONLY" ||
        (matchedFlags octal).contains "O_RDWR") = false := by
      simp only [List.contains, List.elem_eq_mem, Bool.or_eq_false_iff,
        decide_eq_false_iff_not]
      exact ⟨fun hw => h (Or.inl hw), fun hr => h (Or.inr hr)⟩
    rw [if_neg (by rw [hc]; exact Bool.false_ne_true), if_neg h]

/-- Claim C10: for every decoded octal value, the position-based removal
in `readFlags` (splice at `indexOf("O_RDONLY")`) is equivalent to
removing `O_RDONLY` if present: `O_RDONLY` (bit pattern 0) matches the
subset test for every value, so it is always in the matched list,
`indexOf` never returns -1, no flag other than `O_RDONLY` is ever
removed (also when both write-mode aliases are present), and the result
never contains `O_RDONLY` together with `O_WRONLY` or `O_RDWR`. -/
theorem claim_C10_splice_equiv_remove (octal : Nat) :
    "O_RDONLY" ∈ matchedFlags octal ∧
    jsIndexOf (matchedFlags octal) "O_RDONLY" ≠ -1 ∧
    readFlagsOct octal =
      (if "O_WRONLY" ∈ matchedFlags octal ∨ "O_RDWR" ∈ matchedFlags octal
       then (matchedFlags octal).erase "O_RDONLY"
       else matchedFlags octal) ∧
    (∀ fl ∈ matchedFlags octal, fl ≠ "O_RDONLY" →
      fl ∈ readFlagsOct octal) ∧
    ¬("O_RDONLY" ∈ readFlagsOct octal ∧
      ("O_WRONLY" ∈ readFlagsOct octal ∨ "O_RDWR" ∈ readFlagsOct octal)) := by
  have hcons := matchedFlags_eq_cons octal
  have hnm := not_mem_tailMatched octal
  have herase : (matchedFlags octal).erase "O_RDONLY" = tailMatched octal := by
    rw [hcons]
    exact List.erase_cons_head ..
  refine ⟨?_, ?_, readFlagsOct_eq_erase octal, ?_, ?_⟩
  · rw [hcons]
    exact List.mem_cons_self ..
  · rw [hcons]
    simp [jsIndexOf, List.findIdx?_cons]
  · intro fl hm hne
    rw [readFlagsOct_eq_erase]
    rcases List.mem_cons.mp (hcons ▸ hm) with hh | hh
    · exact absurd hh hne
    · split
      · rw [herase]
        exact hh
      · exact hm
  · rintro ⟨h1, h2⟩
    rw [readFlagsOct_eq_erase] at h1 h2
    by_cases hw : "O_WRONLY" ∈ matchedFlags octal ∨
        "O_RDWR" ∈ matchedFlags octal
    · rw [if_pos hw, herase] at h1
      exact hnm h1
    · rw [if_neg hw] at h2
      exact hw h2

/-- Claim C10 witness: at value 2, the non-removed flag `O_RDWR`
survives into the result. -/
theorem claim_C10_witness : "O_RDWR" ∈ readFlagsOct 2 :=
  (claim_C10_splice_equiv_remove 2).2.2.2.1 "O_RDWR" (by decide) (by decide)

/-- Claim C3 counterexample: decoding the octal string for 0o2 does not
yield `O_WRONLY` (in `FILE_FLAGS`, 0o2 is `O_RDWR`; `O_WRONLY` is 0o1),
so the claim is false at input "2". -/
theorem claim_C3_counterexample : "O_WRONLY" ∉ readFlags "2" := by decide

/-- Claim C3 amended: decoding "2" yields exactly the read-write alias
`O_RDWR` and not `O_RDONLY`; decoding "100002" (regular file combined
with 0o2) yields both the regular-file alias `S_IFREG` and the
read-write alias `O_RDWR`. -/
theorem claim_C3_amended :
    readFlags "2" = ["O_RDWR"] ∧
    "O_RDONLY" ∉ readFlags "2" ∧
    readFlags "100002" = ["O_RDWR", "S_IFREG"] ∧
    "S_IFREG" ∈ readFlags "100002" ∧ "O_RDWR" ∈ readFlags "100002" := by
  refine ⟨by decide, by decide, by decide, by decide, by decide⟩

/-! ### Open-file table reconstruction lemmas -/

/-- How many file records in `fs` carry the open-file id `id`. -/
def countID (id : String) (fs : List RawFileInfo) : Nat :=
  fs.countP (fun f => f.openFileID == id)

/-- The first file record in `fs` carrying the open-file id `id`. -/
def findID (id : String) (fs : List RawFileInfo) : Option RawFileInfo :=
  fs.find? (fun f => f.openFileID == id)

/-- The open-file entry the fold starting from table `t` over records
`fs` produces under `id` (when it succeeds). -/
def expectedLookup (t : OpenFileTable) (fs : List RawFileInfo)
    (id : String) : Option OpenFileEntry :=
  match tlookup t id with
  | some e => some { e with refcount := e.refcount + countID id fs }
  | none =>
    match findID id fs with
    | some f => some { entryOf f with refcount := countID id fs }
    | none => none

/-- A table entry carries the same non-refcount data as a file record. -/
def fileEntryAgrees (e : OpenFileEntry) (f : RawFileInfo) : Prop :=
  e.position = f.pos ∧ e.flags = f.flags ∧ e.vnode = f.vnodeName

/-- Two file records agree on offset, flags and vnode. -/
def fileDataEq (f1 f2 : RawFileInfo) : Prop :=
  f1.pos = f2.pos ∧ f1.flags = f2.flags ∧ f1.vnodeName = f2.vnodeName

instance : DecidablePred (fun p : RawFileInfo × RawFileInfo =>
    fileDataEq p.fst p.snd) := by
  intro p
  unfold fileDataEq
  infer_instance

/-- The number of descriptor-table entries, across a process list, whose
file field is `id`. -/
def fdEntryCount (id : String) (processes : List Process) : Nat :=
  (processes.map (fun p => p.fds.countP (fun q => q.snd.file == id))).sum

/-- The number of open-file entries whose vnode field is `v`. -/
def vnodeRefCount (v : String) (openFiles : OpenFileTable) : Nat :=
  openFiles.countP (fun q => q.snd.vnode == v)

theorem tset_eq_append {κ ν : Type} [DecidableEq κ] (t : List (κ × ν))
    (key : κ) (val : ν) (h : tlookup t key = none) :
    tset t key val = t ++ [(key, val)] := by
  induction t with
  | nil => rfl
  | cons hd tl ih =>
    obtain ⟨k, v⟩ := hd
    by_cases hk : k = key
    · simp [tlookup, hk] at h
    · simp only [tlookup, if_neg hk] at h
      simp [tset, hk, ih h]

theorem expectedLookup_nil (t : OpenFileTable) (id : String) :
    expectedLookup t [] id = tlookup t id := by
  unfold expectedLookup
  cases h : tlookup t id with
  | none => simp [findID]
  | some e =>
    obtain ⟨p, fl, rc, vn⟩ := e
    simp [countID]

theorem expectedLookup_congr (tA tB : OpenFileTable)
    (fs : List RawFileInfo) (id : String)
    (h : tlookup tA id = tlookup tB id) :
    expectedLookup tA fs id = expectedLookup tB fs id := by
  unfold expectedLookup
  rw [h]

/-- Characterization of a successful open-file fold: the final lookup
under each id adds the number of records carrying that id to the
starting entry, or creates the entry from the first such record. -/
theorem openFileGo_lookup (fs : List RawFileInfo) :
    ∀ t t' : OpenFileTable, openFileGo t fs = .ok t' →
      ∀ id, tlookup t' id = expectedLookup t fs id := by
  induction fs with
  | nil =>
    intro t t' h id
    simp only [openFileGo] at h
    cases h
    rw [expectedLookup_nil]
  | cons f rest ih =>
    intro t t' h id
    simp only [openFileGo] at h
    cases hins : insertOpenFile t f with
    | error e => rw [hins] at h; cases h
    | ok t1 =>
      rw [hins] at h
      have hmain := ih t1 t' h id
      rw [hmain]
      by_cases hid : f.openFileID = id
      · subst hid
        unfold insertOpenFile at hins
        cases hl : tlookup t f.openFileID with
        | none =>
          rw [hl] at hins
          cases hins
          unfold expectedLookup
          rw [hl, tlookup_tset_self]
          have hfind : findID f.openFileID (f :: rest) = some f := by
            simp [findID, List.find?]
          have hcount : countID f.openFileID (f :: rest) =
              countID f.openFileID rest + 1 := by
            simp [countID, List.countP_cons]
          rw [hfind, hcount]
          simp [entryOf, Nat.add_comm]
        | some existing =>
          rw [hl] at hins
          dsimp only at hins
          by_cases hsame : sameOpenFile (entryOf f) existing
          · rw [if_pos hsame] at hins
            cases hins
            unfold expectedLookup
            rw [hl, tlookup_tmodify_self, hl]
            have hcount : countID f.openFileID (f :: rest) =
                countID f.openFileID rest + 1 := by
              simp [countID, List.countP_cons]
            rw [hcount]
            simp [Nat.add_assoc, Nat.add_comm]
            omega
          · rw [if_neg hsame] at hins
            cases hins
      · have hcount : countID id (f :: rest) = countID id rest := by
          simp only [countID, List.countP_cons]
          have : (f.openFileID == id) = false := by
            simp [hid]
          simp [this]
        have hfind : findID id (f :: rest) = findID id rest := by
          have : (f.openFileID == id) = false := by
            simp [hid]
          simp [findID, List.find?, this]
        have hlook : tlookup t1 id = tlookup t id := by
          unfold insertOpenFile at hins
          cases hl : tlookup t f.openFileID with
          | none =>
            rw [hl] at hins
            cases hins
            exact tlookup_tset_ne t f.openFileID id (entryOf f) hid
          | some existing =>
            rw [hl] at hins
            dsimp only at hins
            by_cases hsame : sameOpenFile (entryOf f) existing
            · rw [if_pos hsame] at hins
              cases hins
              exact tlookup_tmodify_ne _ t f.openFileID id hid
            · rw [if_neg hsame] at hins
              cases hins
        unfold expectedLookup
        rw [hlook, hcount, hfind]

/-- On success, every folded file record has a table entry under its id
carrying the same non-refcount data. -/
theorem openFileGo_agrees (fs : List RawFileInfo) :
    ∀ t t' : OpenFileTable, openFileGo t fs = .ok t' →
      ∀ f ∈ fs, ∃ e, tlookup t' f.openFileID = some e ∧
        fileEntryAgrees e f := by
  induction fs with
  | nil =>
    intro t t' _ f hf
    simp at hf
  | cons g rest ih =>
    intro t t' h f hf
    simp only [openFileGo] at h
    cases hins : insertOpenFile t g with
    | error e => rw [hins] at h; cases h
    | ok t1 =>
      rw [hins] at h
      rcases List.mem_cons.mp hf with hfg | hfr
      · subst hfg
        have h1 : ∃ e1, tlookup t1 f.openFileID = some e1 ∧
            fileEntryAgrees e1 f := by
          unfold insertOpenFile at hins
          cases hl : tlookup t f.openFileID with
          | none =>
            rw [hl] at hins
            cases hins
            exact ⟨entryOf f, tlookup_tset_self .., rfl, rfl, rfl⟩
          | some existing =>
            rw [hl] at hins
            dsimp only at hins
            by_cases hsame : sameOpenFile (entryOf f) existing
            · rw [if_pos hsame] at hins
              cases hins
              refine ⟨{ existing with refcount := existing.refcount + 1 },
                ?_, ?_⟩
              · rw [tlookup_tmodify_self, hl]
                rfl
              · simp only [sameOpenFile, entryOf, Bool.and_eq_true,
                  beq_iff_eq] at hsame
                exact ⟨hsame.1.1.symm, hsame.1.2.symm, hsame.2.symm⟩
            · rw [if_neg hsame] at hins
              cases hins
        obtain ⟨e1, he1, hag⟩ := h1
        have := openFileGo_lookup rest t1 t' h f.openFileID
        rw [this]
        unfold expectedLookup
        rw [he1]
        exact ⟨_, rfl, hag.1, hag.2.1, hag.2.2⟩
      · exact ih t1 t' h f hfr

/-- Two records with the same id in a successfully folded list agree on
their data. -/
theorem openFileGo_consistent (fs : List RawFileInfo)
    (t t' : OpenFileTable) (h : openFileGo t fs = .ok t')
    (f1 : RawFileInfo) (h1 : f1 ∈ fs) (f2 : RawFileInfo) (h2 : f2 ∈ fs)
    (hid : f1.openFileID = f2.openFileID) : fileDataEq f1 f2 := by
  obtain ⟨e1, he1, hag1⟩ := openFileGo_agrees fs t t' h f1 h1
  obtain ⟨e2, he2, hag2⟩ := openFileGo_agrees fs t t' h f2 h2
  rw [hid, he2] at he1
  cases he1
  exact ⟨hag1.1.symm.trans hag2.1, hag1.2.1.symm.trans hag2.2.1,
    hag1.2.2.symm.trans hag2.2.2⟩

/-- A conflicting duplicate id makes the fold fail. -/
theorem openFileGo_error_of_conflict (fs : List RawFileInfo)
    (t : OpenFileTable)
    (hc : ∃ f1 ∈ fs, ∃ f2 ∈ fs, f1.openFileID = f2.openFileID ∧
      ¬ fileDataEq f1 f2) :
    ∃ err, openFileGo t fs = .error err := by
  obtain ⟨f1, h1, f2, h2, hid, hne⟩ := hc
  cases hgo : openFileGo t fs with
  | ok t' =>
    exact absurd (openFileGo_consistent fs t t' hgo f1 h1 f2 h2 hid) hne
  | error err => exact ⟨err, rfl⟩

/-- The fold preserves distinctness of table keys. -/
theorem openFileGo_nodup (fs : List RawFileInfo) :
    ∀ t t' : OpenFileTable, openFileGo t fs = .ok t' →
      (tkeys t).Nodup → (tkeys t').Nodup := by
  induction fs with
  | nil =>
    intro t t' h hnd
    simp only [openFileGo] at h
    cases h
    exact hnd
  | cons f rest ih =>
    intro t t' h hnd
    simp only [openFileGo] at h
    cases hins : insertOpenFile t f with
    | error e => rw [hins] at h; cases h
    | ok t1 =>
      rw [hins] at h
      refine ih t1 t' h ?_
      unfold insertOpenFile at hins
      cases hl : tlookup t f.openFileID with
      | none =>
        rw [hl] at hins
        cases hins
        rw [tset_eq_append t f.openFileID (entryOf f) hl]
        simp only [tkeys, List.map_append, List.map_cons, List.map_nil]
        rw [List.nodup_append]
        refine ⟨hnd, List.nodup_singleton _, ?_⟩
        intro a ha hb
        simp at hb
        subst hb
        exact (tlookup_eq_none_iff t f.openFileID).mp hl ha
      | some existing =>
        rw [hl] at hins
        dsimp only at hins
        by_cases hsame : sameOpenFile (entryOf f) existing
        · rw [if_pos hsame] at hins
          cases hins
          rw [tkeys_tmodify]
          exact hnd
        · rw [if_neg hsame] at hins
          cases hins

/-! ### Vnode table lemmas -/

/-- Every entry built by the first `populateVnodeTable` loop has its key
as name and a zero working refcount. -/
theorem vnodeGo_zero (fs : List RawFileInfo) :
    ∀ t t' : VnodeTable, vnodeGo t fs = .ok t' →
      (∀ k e, tlookup t k = some e → e = ⟨k, 0⟩) →
      ∀ k e, tlookup t' k = some e → e = ⟨k, 0⟩ := by
  induction fs with
  | nil =>
    intro t t' h hz
    simp only [vnodeGo] at h
    cases h
    exact hz
  | cons f rest ih =>
    intro t t' h hz
    simp only [vnodeGo] at h
    cases hins : insertVnode t f with
    | error e => rw [hins] at h; cases h
    | ok t1 =>
      rw [hins] at h
      refine ih t1 t' h ?_
      unfold insertVnode at hins
      cases hl : tlookup t f.vnodeName with
      | none =>
        rw [hl] at hins
        cases hins
        intro k e hk
        by_cases hkey : f.vnodeName = k
        · subst hkey
          rw [tlookup_tset_self] at hk
          cases hk
          rfl
        · rw [tlookup_tset_ne _ _ _ _ hkey] at hk
          exact hz k e hk
      | some existing =>
        rw [hl] at hins
        dsimp only at hins
        by_cases hsame : (⟨f.vnodeName, 0⟩ : VnodeEntry) = existing
        · rw [if_pos hsame] at hins
          cases hins
          exact hz
        · rw [if_neg hsame] at hins
          cases hins

/-- The first `populateVnodeTable` loop preserves key distinctness. -/
theorem vnodeGo_nodup (fs : List RawFileInfo) :
    ∀ t t' : VnodeTable, vnodeGo t fs = .ok t' →
      (tkeys t).Nodup → (tkeys t').Nodup := by
  induction fs with
  | nil =>
    intro t t' h hnd
    simp only [vnodeGo] at h
    cases h
    exact hnd
  | cons f rest ih =>
    intro t t' h hnd
    simp only [vnodeGo] at h
    cases hins : insertVnode t f with
    | error e => rw [hins] at h; cases h
    | ok t1 =>
      rw [hins] at h
      refine ih t1 t' h ?_
      unfold insertVnode at hins
      cases hl : tlookup t f.vnodeName with
      | none =>
        rw [hl] at hins
        cases hins
        rw [tset_eq_append t f.vnodeName _ hl]
        simp only [tkeys, List.map_append, List.map_cons, List.map_nil]
        rw [List.nodup_append]
        refine ⟨hnd, List.nodup_singleton _, ?_⟩
        intro a ha hb
        simp at hb
        subst hb
        exact (tlookup_eq_none_iff t f.vnodeName).mp hl ha
      | some existing =>
        rw [hl] at hins
        dsimp only at hins
        by_cases hsame : (⟨f.vnodeName, 0⟩ : VnodeEntry) = existing
        · rw [if_pos hsame] at hins
          cases hins
          exact hnd
        · rw [if_neg hsame] at hins
          cases hins

/-- After the first loop, every folded record's vnode name has an
entry. -/
theorem vnodeGo_present (fs : List RawFileInfo) :
    ∀ t t' : VnodeTable, vnodeGo t fs = .ok t' →
      (∀ k, (tlookup t k).isSome → (tlookup t' k).isSome) ∧
      (∀ f ∈ fs, (tlookup t' f.vnodeName).isSome) := by
  induction fs with
  | nil =>
    intro t t' h
    simp only [vnodeGo] at h
    cases h
    exact ⟨fun _ hk => hk, by simp⟩
  | cons f rest ih =>
    intro t t' h
    simp only [vnodeGo] at h
    cases hins : insertVnode t f with
    | error e => rw [hins] at h; cases h
    | ok t1 =>
      rw [hins] at h
      have hstep : ∀ k, (tlookup t k).isSome → (tlookup t1 k).isSome := by
        intro k hk
        unfold insertVnode at hins
        cases hl : tlookup t f.vnodeName with
        | none =>
          rw [hl] at hins
          cases hins
          by_cases hkey : f.vnodeName = k
          · subst hkey
            rw [tlookup_tset_self]
            rfl
          · rw [tlookup_tset_ne _ _ _ _ hkey]
            exact hk
        | some existing =>
          rw [hl] at hins
          dsimp only at hins
          by_cases hsame : (⟨f.vnodeName, 0⟩ : VnodeEntry) = existing
          · rw [if_pos hsame] at hins
            cases hins
            exact hk
          · rw [if_neg hsame] at hins
            cases hins
      have hself : (tlookup t1 f.vnodeName).isSome := by
        unfold insertVnode at hins
        cases hl : tlookup t f.vnodeName with
        | none =>
          rw [hl] at hins
          cases hins
          rw [tlookup_tset_self]
          rfl
        | some existing =>
          rw [hl] at hins
          dsimp only at hins
          by_cases hsame : (⟨f.vnodeName, 0⟩ : VnodeEntry) = existing
          · rw [if_pos hsame] at hins
            cases hins
            rw [hl]
            rfl
          · rw [if_neg hsame] at hins
            cases hins
      obtain ⟨hmono, hall⟩ := ih t1 t' h
      refine ⟨fun k hk => hmono k (hstep k hk), ?_⟩
      intro g hg
      rcases List.mem_cons.mp hg with hgf | hgr
      · subst hgf
        exact hmono _ hself
      · exact hall g hgr

/-- The refcount loop: each vnode entry gains the number of open-file
entries naming it. -/
theorem tlookup_bumpVnodeRefcounts (openFiles : OpenFileTable) :
    ∀ (t : VnodeTable) (v : String),
      tlookup (bumpVnodeRefcounts t openFiles) v =
        (tlookup t v).map (fun e =>
          { e with refcount := e.refcount + vnodeRefCount v openFiles }) := by
  induction openFiles with
  | nil =>
    intro t v
    unfold bumpVnodeRefcounts
    simp only [List.foldl_nil]
    cases h : tlookup t v with
    | none => rfl
    | some e =>
      obtain ⟨n, rc⟩ := e
      simp [vnodeRefCount]
  | cons q rest ih =>
    intro t v
    unfold bumpVnodeRefcounts at ih ⊢
    simp only [List.foldl_cons]
    rw [ih]
    by_cases hv : q.snd.vnode = v
    · subst hv
      rw [tlookup_tmodify_self]
      cases h : tlookup t q.snd.vnode with
      | none => rfl
      | some e =>
        have hcnt : vnodeRefCount q.snd.vnode (q :: rest) =
            vnodeRefCount q.snd.vnode rest + 1 := by
          simp [vnodeRefCount, List.countP_cons]
        rw [hcnt]
        simp only [Option.map_some']
        congr 1
        obtain ⟨n, rc⟩ := e
        congr 1
        omega
    · rw [tlookup_tmodify_ne _ _ _ _ hv]
      have hcnt : vnodeRefCount v (q :: rest) = vnodeRefCount v rest := by
        have : (q.snd.vnode == v) = false := by simp [hv]
        simp [vnodeRefCount, List.countP_cons, this]
      rw [hcnt]

/-- The refcount loop does not change the key list. -/
theorem tkeys_bumpVnodeRefcounts (openFiles : OpenFileTable) :
    ∀ t : VnodeTable,
      tkeys (bumpVnodeRefcounts t openFiles) = tkeys t := by
  induction openFiles with
  | nil => intro t; rfl
  | cons q rest ih =>
    intro t
    unfold bumpVnodeRefcounts at ih ⊢
    simp only [List.foldl_cons]
    rw [ih, tkeys_tmodify]

/-! ### Descriptor table lemmas -/

/-- With pairwise-distinct descriptor numbers (guaranteed by the loader,
which keys the `files` object by descriptor number), the descriptor
table is the list of file records in order. -/
theorem buildFds_eq_map (files : List RawFileInfo) :
    ∀ acc : FileDescriptorTable,
      (files.map (fun f => f.fd)).Nodup →
      (∀ f ∈ files, f.fd ∉ tkeys acc) →
      files.foldl (fun fds f => tset fds f.fd ⟨f.openFileID, f.closeOnExec⟩)
          acc =
        acc ++ files.map (fun f => (f.fd,
          (⟨f.openFileID, f.closeOnExec⟩ : FDEntry))) := by
  induction files with
  | nil => intro acc _ _; simp
  | cons f rest ih =>
    intro acc hnd hdisj
    simp only [List.map_cons, List.nodup_cons] at hnd
    simp only [List.foldl_cons]
    have hfresh : tlookup acc f.fd = none :=
      (tlookup_eq_none_iff acc f.fd).mpr
        (hdisj f (List.mem_cons_self ..))
    rw [tset_eq_append acc f.fd _ hfresh]
    have hdisj2 : ∀ g ∈ rest, g.fd ∉
        tkeys (acc ++ [(f.fd, (⟨f.openFileID, f.closeOnExec⟩ : FDEntry))]) := by
      intro g hg
      simp only [tkeys, List.map_append, List.map_cons, List.map_nil,
        List.mem_append, List.mem_singleton]
      rintro (hina | hinb)
      · exact hdisj g (List.mem_cons_of_mem _ hg) hina
      · have hgne : g.fd ≠ f.fd := by
          intro hEq
          exact hnd.1 (hEq ▸ List.mem_map_of_mem (fun f => f.fd) hg)
        exact hgne hinb
    have hrec := ih
      (acc ++ [(f.fd, (⟨f.openFileID, f.closeOnExec⟩ : FDEntry))]) hnd.2 hdisj2
    rw [hrec]
    simp

/-- The descriptor-table entry count over the cleaned process list equals
the file-record count over the flattened raw file lists. -/
theorem fdEntryCount_populate (id : String) (procs : List RawProcessInfo)
    (hfd : ∀ p ∈ procs, (p.files.map (fun f => f.fd)).Nodup) :
    fdEntryCount id (populateProcessTable procs) =
      countID id ((procs.map (fun p => p.files)).flatten) := by
  unfold fdEntryCount populateProcessTable countID
  rw [List.countP_flatten, List.map_map, List.map_map]
  congr 1
  apply List.map_congr_left
  intro p hp
  have hb := buildFds_eq_map p.files [] (hfd p hp)
    (by intro f _ hmem; simp [tkeys] at hmem)
  simp only [Function.comp]
  unfold buildFds at *
  rw [hb]
  simp only [List.nil_append, List.countP_map]
  rfl

/-- Claim C1: in every namespace that reconstructs successfully, each
open-file entry's refcount equals the number of descriptor-table entries
across the exposed process list whose file field names that open-file id
(shared open files fold into one entry whose refcount counts all
referencing descriptors), and each vnode entry's refcount equals the
number of open-file entries whose vnode field names it.  The hypothesis
`hfd` records that descriptor numbers are pairwise distinct within each
process, which the loader guarantees by keying file records by
descriptor number. -/
theorem claim_C1_refcount_invariants (raw : RawContainerInfo)
    (res : CleanResult)
    (hfd : ∀ p ∈ raw.map Prod.snd, (p.files.map (fun f => f.fd)).Nodup)
    (h : cleanContainerData raw = .ok res) :
    (∀ id e, (id, e) ∈ res.data.openFiles →
      e.refcount = fdEntryCount id res.data.processes) ∧
    (∀ v e, (v, e) ∈ res.data.vnodes →
      e.refcount = vnodeRefCount v res.data.openFiles) := by
  unfold cleanContainerData at h
  cases hinit : tlookup raw 1 with
  | none => rw [hinit] at h; cases h
  | some init =>
    rw [hinit] at h
    dsimp only at h
    cases hoft : populateOpenFileTable (exposedFiles raw) with
    | error e => rw [hoft] at h; cases h
    | ok oft =>
      rw [hoft] at h
      dsimp only at h
      cases hvt : populateVnodeTable (exposedFiles raw) oft with
      | error e => rw [hvt] at h; cases h
      | ok vt =>
        rw [hvt] at h
        dsimp only at h
        cases h
        unfold populateOpenFileTable at hoft
        constructor
        · intro id e hmem
          have hnd : (tkeys oft).Nodup :=
            openFileGo_nodup (exposedFiles raw) [] oft hoft
              (by simp [tkeys])
          have hlk : tlookup oft id = some e :=
            tlookup_eq_some_of_mem _ _ _ hnd hmem
          have hexp := openFileGo_lookup (exposedFiles raw) [] oft hoft id
          rw [hlk] at hexp
          unfold expectedLookup at hexp
          simp only [tlookup] at hexp
          cases hfind : findID id (exposedFiles raw) with
          | none => rw [hfind] at hexp; cases hexp
          | some f =>
            rw [hfind] at hexp
            cases hexp
            have hcnt := fdEntryCount_populate id (exposedProcs raw)
              (by
                intro p hp
                exact hfd p (List.mem_of_mem_filter hp))
            show countID id (exposedFiles raw) =
              fdEntryCount id (populateProcessTable (exposedProcs raw))
            have hfe : exposedFiles raw =
                ((exposedProcs raw).map (fun p => p.files)).flatten := rfl
            rw [hfe]
            exact hcnt.symm
        · intro v e hmem
          unfold populateVnodeTable at hvt
          cases hgo : vnodeGo [] (exposedFiles raw) with
          | error e2 => rw [hgo] at hvt; cases hvt
          | ok vt0 =>
            rw [hgo] at hvt
            cases hvt
            have hnd0 : (tkeys vt0).Nodup :=
              vnodeGo_nodup (exposedFiles raw) [] vt0 hgo (by simp [tkeys])
            have hndv : (tkeys (bumpVnodeRefcounts vt0 oft)).Nodup := by
              rw [tkeys_bumpVnodeRefcounts]
              exact hnd0
            have hlk : tlookup (bumpVnodeRefcounts vt0 oft) v = some e :=
              tlookup_eq_some_of_mem _ _ _ hndv hmem
            rw [tlookup_bumpVnodeRefcounts] at hlk
            cases h0 : tlookup vt0 v with
            | none => rw [h0] at hlk; cases hlk
            | some e0 =>
              rw [h0] at hlk
              simp only [Option.map_some'] at hlk
              cases hlk
              have hz := vnodeGo_zero (exposedFiles raw) [] vt0 hgo
                (by intro k e1 hk; simp [tlookup] at hk) v e0 h0
              rw [hz]
              show 0 + vnodeRefCount v oft = vnodeRefCount v oft
              omega

/-- A concrete namespace: an init process plus two user processes whose
descriptor tables share one open file. -/
def RAW1 : RawContainerInfo :=
  [(1, ⟨"ns1", 100, 1, 0, 1, "init", []⟩),
   (2, ⟨"ns1", 101, 2, 1, 2, "a",
     [⟨0, false, "of1", 0, ["O_RDWR"], "pipe:[7]"⟩]⟩),
   (3, ⟨"ns1", 102, 3, 2, 2, "b",
     [⟨1, false, "of1", 0, ["O_RDWR"], "pipe:[7]"⟩]⟩)]

/-- The cleaned snapshot of `RAW1`: one open-file entry with refcount 2. -/
def RES1 : CleanResult :=
  ⟨100,
   ⟨[⟨2, 1, 2, "a", [(0, ⟨"of1", false⟩)]⟩,
     ⟨3, 2, 2, "b", [(1, ⟨"of1", false⟩)]⟩],
    [("of1", ⟨0, ["O_RDWR"], 2, "pipe:[7]"⟩)],
    [("pipe:[7]", ⟨"pipe:[7]", 1⟩)]⟩⟩

/-- Claim C1 witness: in `RAW1`, the two processes sharing the open file
"of1" fold into a single entry whose refcount 2 equals the number of
descriptor-table entries naming it. -/
theorem claim_C1_witness :
    (⟨0, ["O_RDWR"], 2, "pipe:[7]"⟩ : OpenFileEntry).refcount =
      fdEntryCount "of1" RES1.data.processes :=
  (claim_C1_refcount_invariants RAW1 RES1 (by decide) rfl).1
    "of1" ⟨0, ["O_RDWR"], 2, "pipe:[7]"⟩ (by decide)

/-- Claim C5: for every successfully reconstructed namespace, the
snapshot key is the global pid of the container-relative pid-1 process,
and every exposed process entry carries only container-relative ids
copied from a raw process with container pid strictly greater than 1
(so no global pid appears in the exposed data, and no process with
container pid at most 1 is listed). -/
theorem claim_C5_namespace_isolation (raw : RawContainerInfo)
    (res : CleanResult) (h : cleanContainerData raw = .ok res) :
    (∃ init, tlookup raw 1 = some init ∧
      res.globalPID = init.globalPID) ∧
    (∀ p ∈ res.data.processes, p.pid > 1 ∧
      ∃ rp ∈ raw.map Prod.snd, rp.containerPID > 1 ∧
        p.pid = rp.containerPID ∧ p.ppid = rp.containerPPID ∧
        p.pgid = rp.containerPGID ∧ p.command = rp.command) := by
  unfold cleanContainerData at h
  cases hinit : tlookup raw 1 with
  | none => rw [hinit] at h; cases h
  | some init =>
    rw [hinit] at h
    dsimp only at h
    cases hoft : populateOpenFileTable (exposedFiles raw) with
    | error e => rw [hoft] at h; cases h
    | ok oft =>
      rw [hoft] at h
      dsimp only at h
      cases hvt : populateVnodeTable (exposedFiles raw) oft with
      | error e => rw [hvt] at h; cases h
      | ok vt =>
        rw [hvt] at h
        dsimp only at h
        cases h
        constructor
        · exact ⟨init, rfl, rfl⟩
        · intro p hp
          have hp' : p ∈ populateProcessTable (exposedProcs raw) := hp
          unfold populateProcessTable at hp'
          obtain ⟨rp, hrp, hmk⟩ := List.mem_map.mp hp'
          have hrpm := List.mem_of_mem_filter hrp
          have hgt : rp.containerPID > 1 := by
            have := List.of_mem_filter hrp
            simpa using this
          subst hmk
          exact ⟨hgt, rp, hrpm, hgt, rfl, rfl, rfl, rfl⟩

/-- Claim C5 witness: the first exposed process of `RAW1` has
container-relative pid 2, which is greater than 1. -/
theorem claim_C5_witness :
    (⟨2, 1, 2, "a", [(0, ⟨"of1", false⟩)]⟩ : Process).pid > 1 :=
  ((claim_C5_namespace_isolation RAW1 RES1 rfl).2
    ⟨2, 1, 2, "a", [(0, ⟨"of1", false⟩)]⟩ (by decide)).1

/-- Either malformation (missing container-relative pid 1, or two file
records with the same open-file id but differing data) makes
`cleanContainerData` fail with a `DebugDataError`. -/
theorem cleanContainerData_error_of_malformed (bad : RawContainerInfo)
    (hbad : tlookup bad 1 = none ∨
      ∃ f1 ∈ exposedFiles bad, ∃ f2 ∈ exposedFiles bad,
        f1.openFileID = f2.openFileID ∧ ¬ fileDataEq f1 f2) :
    ∃ err, cleanContainerData bad = .error err := by
  unfold cleanContainerData
  cases hinit : tlookup bad 1 with
  | none => exact ⟨_, rfl⟩
  | some init =>
    rcases hbad with hinit' | hconf
    · rw [hinit] at hinit'
      cases hinit'
    · dsimp only
      obtain ⟨err, herr⟩ :=
        openFileGo_error_of_conflict (exposedFiles bad) [] hconf
      rw [show populateOpenFileTable (exposedFiles bad) = .error err
        from herr]
      exact ⟨err, rfl⟩

/-- One reconstruction step never removes a key from the accumulator. -/
theorem reconstructStep_mono (acc : CleanedInfoByNamespace)
    (ns : String × RawContainerInfo) (g : Nat)
    (h : (tlookup acc g).isSome) :
    (tlookup (reconstructStep acc ns) g).isSome := by
  unfold reconstructStep
  cases hc : cleanContainerData ns.snd with
  | error e => exact h
  | ok r =>
    by_cases hg : r.globalPID = g
    · subst hg
      rw [tlookup_tset_self]
      rfl
    · rw [tlookup_tset_ne _ _ _ _ hg]
      exact h

/-- After folding, every successfully cleaned namespace of the input has
an entry under its global pid. -/
theorem reconstruct_key_present (l : RawInfoByNamespace) :
    ∀ (acc : CleanedInfoByNamespace) (g : Nat),
      ((tlookup acc g).isSome ∨
        ∃ nsid' ns' r, (nsid', ns') ∈ l ∧
          cleanContainerData ns' = .ok r ∧ r.globalPID = g) →
      (tlookup (l.foldl reconstructStep acc) g).isSome := by
  induction l with
  | nil =>
    intro acc g h
    rcases h with h | ⟨_, _, _, hmem, _⟩
    · exact h
    · simp at hmem
  | cons x rest ih =>
    intro acc g h
    simp only [List.foldl_cons]
    rcases h with h | ⟨nsid', ns', r, hmem, hok, hg⟩
    · exact ih _ g (Or.inl (reconstructStep_mono acc x g h))
    · rcases List.mem_cons.mp hmem with hx | hrest
      · refine ih _ g (Or.inl ?_)
        subst hx
        unfold reconstructStep
        dsimp only
        rw [hok]
        dsimp only
        subst hg
        rw [tlookup_tset_self]
        rfl
      · exact ih _ g (Or.inr ⟨nsid', ns', r, hrest, hok, hg⟩)

/-- Claim C4: reconstruction failures are isolated per namespace.  A
namespace with no container-relative pid 1, or with two records of the
same open-file id and differing offset, flags or vnode, raises a
`DebugDataError` that is caught per namespace: the result equals the
reconstruction of the input without that namespace, and every other
successfully cleaning namespace still has an entry under its key. -/
theorem claim_C4_failure_isolation (pre post : RawInfoByNamespace)
    (nsid : String) (bad : RawContainerInfo)
    (hbad : tlookup bad 1 = none ∨
      ∃ f1 ∈ exposedFiles bad, ∃ f2 ∈ exposedFiles bad,
        f1.openFileID = f2.openFileID ∧ ¬ fileDataEq f1 f2) :
    (∃ err, cleanContainerData bad = .error err) ∧
    reconstructTables (pre ++ (nsid, bad) :: post) =
      reconstructTables (pre ++ post) ∧
    (∀ nsid' ns' r, (nsid', ns') ∈ pre ++ post →
      cleanContainerData ns' = .ok r →
      ∃ d, tlookup (reconstructTables (pre ++ (nsid, bad) :: post))
        r.globalPID = some d) := by
  obtain ⟨err, herr⟩ := cleanContainerData_error_of_malformed bad hbad
  have hskip : ∀ acc, reconstructStep acc (nsid, bad) = acc := by
    intro acc
    unfold reconstructStep
    rw [herr]
  have heq : reconstructTables (pre ++ (nsid, bad) :: post) =
      reconstructTables (pre ++ post) := by
    unfold reconstructTables
    rw [List.foldl_append, List.foldl_cons, hskip, List.foldl_append]
  refine ⟨⟨err, herr⟩, heq, ?_⟩
  intro nsid' ns' r hmem hok
  have hpres : (tlookup (reconstructTables (pre ++ (nsid, bad) :: post))
      r.globalPID).isSome := by
    rw [heq]
    unfold reconstructTables
    exact reconstruct_key_present (pre ++ post) [] r.globalPID
      (Or.inr ⟨nsid', ns', r, hmem, hok, rfl⟩)
  exact Option.isSome_iff_exists.mp hpres

/-- A small well-formed sibling namespace. -/
def GOOD4 : RawContainerInfo :=
  [(1, ⟨"nsA", 200, 1, 0, 1, "init", []⟩),
   (2, ⟨"nsA", 201, 2, 1, 2, "a", []⟩)]

/-- A malformed namespace: no container-relative pid 1 at all. -/
def BAD4 : RawContainerInfo := []

/-- Claim C4 witness: dropping the malformed namespace leaves the
reconstruction of the sibling namespace unchanged. -/
theorem claim_C4_witness :
    reconstructTables [("nsA", GOOD4), ("nsB", BAD4)] =
      reconstructTables [("nsA", GOOD4)] :=
  (claim_C4_failure_isolation [("nsA", GOOD4)] [] "nsB" BAD4
    (Or.inl rfl)).2.1

/-! ### Session-layer claims -/

/-- Claim C2 counterexample: with a container held and a command that
throws a non-DebugStateError, the handler neither lets the error escape
(`thrown = none`) nor reports anything (`emitted = []`): the failure is
silently swallowed, contradicting the claim that it propagates out. -/
theorem claim_C2_counterexample :
    (makeDebugHandler (⟨some (), true⟩ : SessionState Unit)
        (fun _ => DebugCallResult.otherError "boom")).thrown = none ∧
    (makeDebugHandler (⟨some (), true⟩ : SessionState Unit)
        (fun _ => DebugCallResult.otherError "boom")).emitted = [] :=
  ⟨rfl, rfl⟩

/-- Claim C2 amended: with no container, the handler emits exactly one
cplaygroundError reading "No program is currently running." and does
nothing else; a DebugStateError from the container call is re-emitted as
a cplaygroundError without clearing the container or disconnecting; and
any other failure of the container call is caught and silently discarded
(no event, no propagation, no state change) — the source `catch` block
has no re-throw. -/
theorem claim_C2_debug_handler (γ : Type) (s : SessionState γ)
    (cmd : γ → DebugCallResult) :
    (s.container = none →
      makeDebugHandler s cmd =
        ⟨["No program is currently running."], none, s⟩) ∧
    (∀ c m, s.container = some c → cmd c = .debugStateError m →
      makeDebugHandler s cmd = ⟨[m], none, s⟩) ∧
    (∀ c, s.container = some c → cmd c = .ok →
      makeDebugHandler s cmd = ⟨[], none, s⟩) ∧
    (∀ c m, s.container = some c → cmd c = .otherError m →
      makeDebugHandler s cmd = ⟨[], none, s⟩) := by
  refine ⟨?_, ?_, ?_, ?_⟩
  · intro h
    unfold makeDebugHandler
    rw [h]
  · intro c m h hc
    unfold makeDebugHandler
    rw [h]
    dsimp only
    rw [hc]
  · intro c h hc
    unfold makeDebugHandler
    rw [h]
    dsimp only
    rw [hc]
  · intro c m h hc
    unfold makeDebugHandler
    rw [h]
    dsimp only
    rw [hc]

/-- Claim C2 witness: a debug command with no container emits exactly
the structured missing-container error. -/
theorem claim_C2_witness :
    makeDebugHandler (⟨none, true⟩ : SessionState Unit)
      (fun _ => DebugCallResult.ok) =
      ⟨["No program is currently running."], none, ⟨none, true⟩⟩ :=
  (claim_C2_debug_handler Unit ⟨none, true⟩ (fun _ => DebugCallResult.ok)).1
    rfl

/-- Claim C8: a run event received while a container is held is a
complete no-op: the state is unchanged, no action (validation, persist,
emit, disconnect, container construction) happens, and the result does
not depend on the request at all. -/
theorem claim_C8_run_noop (γ : Type) (cfg : ValidatorConfig)
    (gfc : String → Option (List Nat)) (mk : RunParams → γ)
    (aliasStr : String) (s : SessionState γ) (c : γ)
    (hc : s.container = some c) (request request' : RunEventBody) :
    startContainer cfg gfc mk aliasStr s request = (s, []) ∧
    startContainer cfg gfc mk aliasStr s request =
      startContainer cfg gfc mk aliasStr s request' := by
  unfold startContainer
  rw [hc]
  exact ⟨rfl, rfl⟩

/-- A concrete validator configuration for the witnesses. -/
def CFG0 : ValidatorConfig :=
  ⟨["C99", "C11", "C++17"], "C++17", ["-O2", "-Wall"], 100, 100, 100⟩

/-- A concrete persistence lookup that resolves nothing. -/
def GFC0 : String → Option (List Nat) := fun _ => none

/-- A minimal concrete run request. -/
def REQ0 : RunEventBody := ⟨"C99", none, none, none, none, false, none⟩

/-- Claim C8 witness: with a held container, a run event leaves the
session untouched and performs no action. -/
theorem claim_C8_witness :
    startContainer CFG0 GFC0 (fun _ => ()) "al"
      (⟨some (), true⟩ : SessionState Unit) REQ0 = (⟨some (), true⟩, []) :=
  (claim_C8_run_noop Unit CFG0 GFC0 (fun _ => ()) "al" ⟨some (), true⟩ ()
    rfl REQ0 REQ0).1

/-- Claim C9: with an active container, disconnecting triggers the
shutdown call unconditionally, and across every interleaving of the
disconnect event and the container-exit notification exactly one
`shutdown()` is called — also when the exit notification (which closes
the socket and clears the container reference) has already been
processed.  The synchronous firing of the registered disconnect listener
by `socket.disconnect()` is modelled from the spec, the socket library
being an external collaborator. -/
theorem claim_C9_single_shutdown (γ : Type) (s : SessionState γ) (c : γ)
    (hc : s.container = some c) (hconn : s.connected = true) :
    (stepSession s SessEvent.disconnect).snd =
      [Action.disconnect, Action.shutdown] ∧
    shutdownCount (runSession s [SessEvent.disconnect]).snd = 1 ∧
    shutdownCount (runSession s [SessEvent.containerExit]).snd = 1 ∧
    shutdownCount
      (runSession s [SessEvent.disconnect, SessEvent.containerExit]).snd
      = 1 ∧
    shutdownCount
      (runSession s [SessEvent.containerExit, SessEvent.disconnect]).snd
      = 1 := by
  obtain ⟨cont, conn⟩ := s
  simp only at hc hconn
  subst hc
  subst hconn
  refine ⟨rfl, rfl, rfl, rfl, rfl⟩

/-- Claim C9 witness: the exit-then-disconnect interleaving performs
exactly one shutdown call. -/
theorem claim_C9_witness :
    shutdownCount
      (runSession (⟨some (), true⟩ : SessionState Unit)
        [SessEvent.containerExit, SessEvent.disconnect]).snd = 1 :=
  (claim_C9_single_shutdown Unit ⟨some (), true⟩ () rfl rfl).2.2.2.2

/-- `getRunParams` depends on the language field only through the
substituted language. -/
theorem getRunParams_language_congr (cfg : ValidatorConfig)
    (gfc : String → Option (List Nat)) (r1 r2 : RunEventBody)
    (hL : substitutedLang cfg r1 = substitutedLang cfg r2)
    (hf : r1.flags = r2.flags) (hc : r1.code = r2.code)
    (ha : r1.args = r2.args) (hi : r1.includeFileId = r2.includeFileId)
    (hd : r1.debug = r2.debug) (hb : r1.breakpoints = r2.breakpoints) :
    getRunParams cfg gfc r1 = getRunParams cfg gfc r2 := by
  obtain ⟨l1, f1, c1, a1, i1, d1, b1⟩ := r1
  obtain ⟨l2, f2, c2, a2, i2, d2, b2⟩ := r2
  simp only at hf hc ha hi hd hb
  subst hf
  subst hc
  subst ha
  subst hi
  subst hd
  subst hb
  simp only [getRunParams, compilerOf, composedCflags, suppliedCflags,
    includeFileDataOf, jsTruthyStr]
  rw [hL]

/-- Claim C6: getRunParams never rejects because of the language field —
an unsupported language is replaced by the configured default, giving
the same result as requesting the default; on success, the compiler is
gcc exactly when the substituted language is C99 or C11 and g++
otherwise; the composed cflags string is the dialect flag for the
substituted language joined with exactly the whitelisted requested flags
(`composedCflags`); the warning fires iff at least one requested flag
was dropped by the whitelist filter; and the cflags-length rejection
happens iff the composed string exceeds the configured maximum. -/
theorem claim_C6_language_flags (cfg : ValidatorConfig)
    (gfc : String → Option (List Nat)) (req : RunEventBody) :
    (∀ l, cfg.SUPPORTED_VERSIONS.contains l = false →
      getRunParams cfg gfc { req with language := l } =
        getRunParams cfg gfc { req with language := cfg.DEFAULT_VERSION }) ∧
    (∀ p, getRunParams cfg gfc req = .ok p →
      ((p.compiler = "gcc" ↔ (substitutedLang cfg req = "C99" ∨
          substitutedLang cfg req = "C11")) ∧
        (p.compiler = "gcc" ∨ p.compiler = "g++"))) ∧
    (∀ p, getRunParams cfg gfc req = .ok p →
      p.cflags = composedCflags cfg req) ∧
    (cflagsWarning cfg req = true ↔
      ∃ fl ∈ req.flags.getD [], cfg.FLAG_WHITELIST.contains fl = false) ∧
    (getRunParams cfg gfc req =
        .error ⟨"Submitted cflags exceeds max length!"⟩ ↔
      (composedCflags cfg req).length > cfg.CFLAGS_MAX_LEN) := by
  refine ⟨?_, ?_, ?_, ?_, ?_⟩
  · intro l hl
    apply getRunParams_language_congr <;> try rfl
    unfold substitutedLang
    dsimp only
    rw [if_neg (by rw [hl]; exact Bool.false_ne_true)]
    split
    · rfl
    · rfl
  · intro p hp
    unfold getRunParams at hp
    split at hp
    · cases hp
    · split at hp
      · cases hp
      · split at hp
        · cases hp
        · split at hp
          · cases hp
          · split at hp
            · cases hp
            · cases hp
              constructor
              · show compilerOf cfg req = "gcc" ↔ _
                unfold compilerOf
                by_cases hmem : ["C99", "C11"].contains
                    (substitutedLang cfg req) = true
                · rw [if_pos hmem]
                  have hm : substitutedLang cfg req = "C99" ∨
                      substitutedLang cfg req = "C11" := by
                    have hmm : substitutedLang cfg req ∈ ["C99", "C11"] := by
                      simpa [List.contains, List.elem_eq_mem] using hmem
                    simpa using hmm
                  simp [hm]
                · rw [if_neg hmem]
                  have hm : ¬(substitutedLang cfg req = "C99" ∨
                      substitutedLang cfg req = "C11") := by
                    intro hor
                    apply hmem
                    have hmm : substitutedLang cfg req ∈ ["C99", "C11"] := by
                      rcases hor with h | h <;> simp [h]
                    simpa [List.contains, List.elem_eq_mem] using hmm
                  constructor
                  · intro hg
                    exact absurd hg (by decide)
                  · intro hor
                    exact absurd hor hm
              · show compilerOf cfg req = "gcc" ∨ compilerOf cfg req = "g++"
                unfold compilerOf
                split
                · exact Or.inl rfl
                · exact Or.inr rfl
  · intro p hp
    unfold getRunParams at hp
    split at hp
    · cases hp
    · split at hp
      · cases hp
      · split at hp
        · cases hp
        · split at hp
          · cases hp
          · split at hp
            · cases hp
            · cases hp
              rfl
  · unfold cflagsWarning suppliedCflags
    rw [bne_iff_ne]
    constructor
    · intro hne
      by_contra hall
      push_neg at hall
      exact hne (List.filter_length_eq_length.mpr (by
        intro a ha
        have := hall a ha
        simpa [Bool.not_eq_false] using this))
    · rintro ⟨fl, hmem, hflF⟩ heq
      have := List.filter_length_eq_length.mp heq fl hmem
      rw [hflF] at this
      cases this
  · constructor
    · intro herr
      unfold getRunParams at herr
      split at herr
      · assumption
      · split at herr
        · exact absurd (congrArg (fun x =>
            match x with
            | Except.error e => e.message
            | Except.ok _ => "") herr) (by decide)
        · split at herr
          · exact absurd (congrArg (fun x =>
              match x with
              | Except.error e => e.message
              | Except.ok _ => "") herr) (by decide)
          · split at herr
            · exact absurd (congrArg (fun x =>
                match x with
                | Except.error e => e.message
                | Except.ok _ => "") herr) (by decide)
            · split at herr
              · exact absurd (congrArg (fun x =>
                  match x with
                  | Except.error e => e.message
                  | Except.ok _ => "") herr) (by decide)
              · cases herr
    · intro hlen
      unfold getRunParams
      rw [if_pos hlen]

/-- Claim C6 witness: requesting the unsupported language "Java" gives
the same validation result as requesting the configured default. -/
theorem claim_C6_witness :
    getRunParams CFG0 GFC0 { REQ0 with language := "Java" } =
      getRunParams CFG0 GFC0 { REQ0 with language := "C++17" } :=
  (claim_C6_language_flags CFG0 GFC0 REQ0).1 "Java" (by decide)

/-- Claim C7: getRunParams fails exactly when the composed cflags, the
code or the args exceed their maxima, a supplied include-file id
resolves to no bytes, or breakpoints are present without debug mode;
every failure is the single `ClientValidationError` kind (the return
type); and on any validation failure `startContainer` builds no
container, persists nothing, emits nothing, and only terminates the
connection. -/
theorem claim_C7_validation (γ : Type) (cfg : ValidatorConfig)
    (gfc : String → Option (List Nat)) (req : RunEventBody) :
    ((∃ e, getRunParams cfg gfc req = .error e) ↔
      ((composedCflags cfg req).length > cfg.CFLAGS_MAX_LEN ∨
       (req.code.getD "").length > cfg.CODE_MAX_LEN ∨
       (req.args.getD "").length > cfg.ARGS_MAX_LEN ∨
       (jsTruthyStr req.includeFileId = true ∧
         gfc (req.includeFileId.getD "") = none) ∨
       (req.debug = false ∧ req.breakpoints.getD [] ≠ []))) ∧
    (∀ (mk : RunParams → γ) (aliasStr : String) (s : SessionState γ),
      s.container = none → s.connected = true →
      (∃ e, getRunParams cfg gfc req = .error e) →
      startContainer cfg gfc mk aliasStr s req =
        ({ s with connected := false }, [Action.disconnect])) := by
  constructor
  · constructor
    · rintro ⟨e, he⟩
      unfold getRunParams at he
      split at he
      next h => exact Or.inl h
      next h1 =>
        split at he
        next h => exact Or.inr (Or.inl h)
        next h2 =>
          split at he
          next h => exact Or.inr (Or.inr (Or.inl h))
          next h3 =>
            split at he
            next h =>
              refine Or.inr (Or.inr (Or.inr (Or.inl ?_)))
              simp only [Bool.and_eq_true] at h
              obtain ⟨ht, hn⟩ := h
              refine ⟨ht, ?_⟩
              unfold includeFileDataOf at hn
              rw [if_pos ht] at hn
              exact Option.isNone_iff_eq_none.mp hn
            next h4 =>
              split at he
              next h =>
                refine Or.inr (Or.inr (Or.inr (Or.inr ?_)))
                simp only [Bool.and_eq_true, Bool.not_eq_true',
                  decide_eq_true_eq] at h
                obtain ⟨hd, hb⟩ := h
                refine ⟨hd, ?_⟩
                intro hnil
                rw [hnil] at hb
                simp at hb
              next h5 => cases he
    · intro hdis
      cases hval : getRunParams cfg gfc req with
      | error e => exact ⟨e, rfl⟩
      | ok p =>
        exfalso
        unfold getRunParams at hval
        split at hval
        next h => cases hval
        next h1 =>
          split at hval
          next h => cases hval
          next h2 =>
            split at hval
            next h => cases hval
            next h3 =>
              split at hval
              next h => cases hval
              next h4 =>
                split at hval
                next h => cases hval
                next h5 =>
                  rcases hdis with hd | hd | hd | ⟨ht, hn⟩ | ⟨hdbg, hbp⟩
                  · exact h1 hd
                  · exact h2 hd
                  · exact h3 hd
                  · refine h4 ?_
                    simp only [Bool.and_eq_true]
                    refine ⟨ht, ?_⟩
                    unfold includeFileDataOf
                    rw [if_pos ht, hn]
                    rfl
                  · refine h5 ?_
                    simp only [Bool.and_eq_true, Bool.not_eq_true',
                      decide_eq_true_eq]
                    exact ⟨hdbg, List.length_pos.mpr hbp⟩
  · intro mk aliasStr s hcont hconn ⟨e, he⟩
    obtain ⟨cont, conn⟩ := s
    simp only at hcont hconn
    subst hcont
    subst hconn
    unfold startContainer
    dsimp only
    rw [he]
    rfl

/-- Claim C7 witness: a request carrying breakpoints without debug mode
fails validation and only hangs up the connection. -/
theorem claim_C7_witness :
    startContainer CFG0 GFC0 (fun _ => ()) "al"
      (⟨none, true⟩ : SessionState Unit)
      ⟨"C99", none, none, none, none, false, some [5]⟩ =
      (⟨none, false⟩, [Action.disconnect]) :=
  (claim_C7_validation Unit CFG0 GFC0
    ⟨"C99", none, none, none, none, false, some [5]⟩).2
    (fun _ => ()) "al" ⟨none, true⟩ rfl rfl
    ⟨⟨"Breakpoints are specified even though debugging is not enabled"⟩,
      rfl⟩

end Cplayground
